import Mathlib

/-!
Verification of the game-state / event-selection core of a browser
visual-novel game (GameState in gameState.js, EventSystem in
eventSystem.js).  JavaScript numbers that the game uses as integers
(day, affection, money, deltas, thresholds) are embedded as `Int`;
event weights and the outcomes of `Math.random()` are embedded as `ℚ`
(each call site takes a rational draw `q` with `0 ≤ q < 1` as an
explicit parameter).  Optional / possibly-absent object fields are
`Option Int`, and JavaScript's falsy coalescing `a || b` is modelled
explicitly so that `0` falls through to the default exactly as in the
source.
-/

namespace VNGame

/-- JavaScript `a || b` on an optional numeric field: an absent field or
a field holding `0` falls through to `b`. -/
def jsOr (a : Option Int) (b : Int) : Int :=
  match a with
  | none => b
  | some x => if x = 0 then b else x

/-- JavaScript truthiness of an optional numeric field (`if (x)`):
present and nonzero. -/
def jsTruthy (a : Option Int) : Bool :=
  match a with
  | none => false
  | some x => decide (x ≠ 0)

/-- The configuration object assembled in the GameState constructor. -/
structure Config where
  goal_money : Int
  affection_threshold : Int
  max_days : Int
  bad_end_threshold : Int
  initial_affection : Int
  work_base_income : Int
  work_income_variation : Int
  play_affection_base : Int
  play_affection_variation : Int
deriving DecidableEq, Repr

/-- The default configuration literal from the GameState constructor. -/
def defaultConfig : Config :=
  { goal_money := 100000
    affection_threshold := 70
    max_days := 30
    bad_end_threshold := 10
    initial_affection := 30
    work_base_income := 5000
    work_income_variation := 2000
    play_affection_base := 5
    play_affection_variation := 3 }

/-- A possibly-partial configuration object, as passed to the
constructor or to `updateConfig` (JavaScript object with optional
fields, merged by `Object.assign`). -/
structure ConfigPatch where
  goal_money : Option Int := none
  affection_threshold : Option Int := none
  max_days : Option Int := none
  bad_end_threshold : Option Int := none
  initial_affection : Option Int := none
  work_base_income : Option Int := none
  work_income_variation : Option Int := none
  play_affection_base : Option Int := none
  play_affection_variation : Option Int := none
deriving DecidableEq, Repr

/-- `Object.assign(this.config, newConfig)`: every field present in the
patch overrides the current value. -/
def updateConfig (c : Config) (p : ConfigPatch) : Config :=
  { goal_money := p.goal_money.getD c.goal_money
    affection_threshold := p.affection_threshold.getD c.affection_threshold
    max_days := p.max_days.getD c.max_days
    bad_end_threshold := p.bad_end_threshold.getD c.bad_end_threshold
    initial_affection := p.initial_affection.getD c.initial_affection
    work_base_income := p.work_base_income.getD c.work_base_income
    work_income_variation := p.work_income_variation.getD c.work_income_variation
    play_affection_base := p.play_affection_base.getD c.play_affection_base
    play_affection_variation := p.play_affection_variation.getD c.play_affection_variation }

/-- The mutable GameState: config plus the four state fields. -/
structure GameState where
  config : Config
  day : Int
  affection : Int
  money : Int
  consecutive_none : Int
deriving DecidableEq, Repr

/-- State initialisation in the GameState constructor. -/
def newGame (c : Config) : GameState :=
  { config := c, day := 1, affection := c.initial_affection, money := 0,
    consecutive_none := 0 }

/-- The optional `eventData` argument of `applyAction`:
`{affection_delta, money_delta}`, each possibly absent. -/
structure EventData where
  affection_delta : Option Int := none
  money_delta : Option Int := none
deriving DecidableEq, Repr

/-- `resetConsecutiveNone()`. -/
def resetConsecutiveNone (s : GameState) : GameState :=
  { s with consecutive_none := 0 }

/-- The `affectionGain` local of the `'play'` branch:
`play_affection_base + Math.floor(Math.random()*(variation*2+1)) - variation`,
with the raw draw `q ∈ [0,1)` passed explicitly. -/
def affectionGain (c : Config) (q : ℚ) : Int :=
  c.play_affection_base + ⌊q * ((c.play_affection_variation * 2 + 1 : Int) : ℚ)⌋ -
    c.play_affection_variation

/-- The `moneyGain` local of the `'work'` branch. -/
def moneyGain (c : Config) (q : ℚ) : Int :=
  c.work_base_income + ⌊q * ((c.work_income_variation * 2 + 1 : Int) : ℚ)⌋ -
    c.work_income_variation

/-- The trailing part of `applyAction`: the event deltas, each applied
only when truthy, with clamping to `[0,100]` resp. `≥ 0`. -/
def applyEventData (s : GameState) (ev : EventData) : GameState :=
  let s1 :=
    if jsTruthy ev.affection_delta then
      { s with affection := max 0 (min 100 (s.affection + ev.affection_delta.getD 0)) }
    else s
  if jsTruthy ev.money_delta then
    { s1 with money := max 0 (s1.money + ev.money_delta.getD 0) }
  else s1

/-- `applyAction(actionType, eventData)`; the random draw `q` of the
action branch is an explicit parameter. -/
def applyAction (s : GameState) (actionType : String) (ev : EventData)
    (q : ℚ) : GameState :=
  let s1 :=
    if actionType = "play" then
      resetConsecutiveNone
        { s with affection := min 100 (s.affection + max 3 (affectionGain s.config q)) }
    else if actionType = "work" then
      resetConsecutiveNone
        { s with money := s.money + max 4000 (min 7000 (moneyGain s.config q)) }
    else if actionType = "none" then
      { s with consecutive_none := s.consecutive_none + 1 }
    else s
  applyEventData s1 ev

/-- `incrementDay()`: saturating increment at `max_days`. -/
def incrementDay (s : GameState) : GameState :=
  if s.day < s.config.max_days then { s with day := s.day + 1 } else s

/-- The state snapshot returned by `getState()`; `config` is a full
copy. -/
structure StateSnapshot where
  day : Option Int := none
  affection : Option Int := none
  money : Option Int := none
  consecutive_none : Option Int := none
  config : Option ConfigPatch := none
deriving DecidableEq, Repr

/-- A full config rendered as a patch with every field present (the
`{...this.config}` copy in `getState`). -/
def Config.toPatch (c : Config) : ConfigPatch :=
  { goal_money := some c.goal_money
    affection_threshold := some c.affection_threshold
    max_days := some c.max_days
    bad_end_threshold := some c.bad_end_threshold
    initial_affection := some c.initial_affection
    work_base_income := some c.work_base_income
    work_income_variation := some c.work_income_variation
    play_affection_base := some c.play_affection_base
    play_affection_variation := some c.play_affection_variation }

/-- `getState()`. -/
def getState (s : GameState) : StateSnapshot :=
  { day := some s.day
    affection := some s.affection
    money := some s.money
    consecutive_none := some s.consecutive_none
    config := some s.config.toPatch }

/-- `setState(state)`: each field is defaulted via `||` (so falsy values
fall through) and clamped, using the config in place BEFORE the input's
config patch is merged; the patch, if present, is merged last. -/
def setState (s : GameState) (inp : StateSnapshot) : GameState :=
  let day := max 1 (min s.config.max_days (jsOr inp.day 1))
  let affection := max 0 (min 100 (jsOr inp.affection s.config.initial_affection))
  let money := max 0 (jsOr inp.money 0)
  let cn := max 0 (jsOr inp.consecutive_none 0)
  let cfg :=
    match inp.config with
    | some p => updateConfig s.config p
    | none => s.config
  { config := cfg, day := day, affection := affection, money := money,
    consecutive_none := cn }

/-- `checkEndingCondition()`: `none` is the JavaScript `null`
(continue). -/
def checkEndingCondition (s : GameState) : Option String :=
  if s.consecutive_none ≥ s.config.bad_end_threshold then
    some "bad_end"
  else if s.day ≥ s.config.max_days then
    if s.affection ≥ s.config.affection_threshold ∧
        s.money ≥ s.config.goal_money then
      some "perfect_end"
    else if s.money ≥ s.config.goal_money then
      some "money_end"
    else if s.affection ≥ s.config.affection_threshold then
      some "affection_end"
    else
      some "normal_end"
  else
    none

/-- `validateState()`. -/
def validateState (s : GameState) : Bool :=
  decide (s.day ≥ 1) && decide (s.day ≤ s.config.max_days) &&
  decide (s.affection ≥ 0) && decide (s.affection ≤ 100) &&
  decide (s.money ≥ 0) && decide (s.consecutive_none ≥ 0)

/-- A narrative event record from the catalog.  Numeric fields that a
catalog entry may omit are `Option Int`; `weight` is a JavaScript
number, embedded as `ℚ`. -/
structure Event where
  id : String := ""
  type : String := ""
  weight : ℚ := 0
  text : List String := []
  affection_delta : Option Int := none
  money_delta : Option Int := none
  affection_min : Option Int := none
  affection_max : Option Int := none
  money_min : Option Int := none
  money_max : Option Int := none
  day_specific : Option Int := none
  special : Bool := false
deriving DecidableEq, Repr

/-- The EventSystem object: the loaded catalog and the `isLoaded`
flag. -/
structure EventSystem where
  events : List Event
  isLoaded : Bool
deriving DecidableEq, Repr

/-- The per-event weight adjustment inside `selectWeightedRandom` for
`'play'` pools: special events get their weight multiplied by `1.2`. -/
def adjustSpecial (e : Event) : Event :=
  { e with weight := if e.special then e.weight * (6 / 5) else e.weight }

/-- The subtraction loop of `selectWeightedRandom`: walk the list
subtracting each weight from the running random value, returning the
first event at which the remainder drops to `≤ 0`; if the loop falls
through, the last element is returned. -/
def pickLoop (rv : ℚ) : List Event → Option Event
  | [] => none
  | e :: rest =>
    if rv - e.weight ≤ 0 then some e
    else
      match pickLoop (rv - e.weight) rest with
      | some x => some x
      | none => some e

/-- `selectWeightedRandom(events)`, with the two `Math.random()` draws
as explicit parameters: `rv` feeds the weighted branch and `ru` the
uniform fallback used when the total weight is `≤ 0`. -/
def selectWeightedRandom (rv ru : ℚ) (events : List Event) : Option Event :=
  match events with
  | [] => none
  | e0 :: _ =>
    let adjusted := if e0.type = "play" then events.map adjustSpecial else events
    let totalWeight := (adjusted.map Event.weight).sum
    if totalWeight ≤ 0 then
      events.get? (⌊ru * (events.length : ℚ)⌋.toNat)
    else
      pickLoop (rv * totalWeight) adjusted

/-- The day-specific filter predicate of `pickEvent`:
`event.day_specific && event.day_specific === day`. -/
def isDaySpecificFor (e : Event) (day : Int) : Bool :=
  jsTruthy e.day_specific && decide (e.day_specific.getD 0 = day)

/-- The generic-pool predicate of `pickEvent`: `!event.day_specific`. -/
def hasNoDaySpecific (e : Event) : Bool :=
  !jsTruthy e.day_specific

/-- `pickEvent(type, day)`, with the random draws passed through. -/
def pickEvent (sys : EventSystem) (type : String) (day : Int)
    (rv ru : ℚ) : Option Event :=
  if !sys.isLoaded then none
  else
    let typeEvents := sys.events.filter (fun e => e.type == type)
    if typeEvents.length = 0 then none
    else
      let daySpecificEvents := typeEvents.filter (fun e => isDaySpecificFor e day)
      if daySpecificEvents.length > 0 then
        selectWeightedRandom rv ru daySpecificEvents
      else
        selectWeightedRandom rv ru (typeEvents.filter hasNoDaySpecific)

/-- `getRandomVariation(base, min, max)`: the base value when the two
bounds coincide, otherwise a uniform integer between them (draw `q`
explicit). -/
def getRandomVariation (q : ℚ) (base mn mx : Int) : Int :=
  if mn = mx then base
  else
    let actualMin := min mn mx
    let actualMax := max mn mx
    ⌊q * ((actualMax - actualMin + 1 : Int) : ℚ)⌋ + actualMin

/-- The `{affection_delta, money_delta}` result of
`calculateEventEffects`. -/
structure EffectResult where
  affection_delta : Int
  money_delta : Int
deriving DecidableEq, Repr

/-- `calculateEventEffects(event)`, with one draw per resource. -/
def calculateEventEffects (ev : Option Event) (qa qm : ℚ) : EffectResult :=
  match ev with
  | none => { affection_delta := 0, money_delta := 0 }
  | some e =>
    { affection_delta :=
        getRandomVariation qa (jsOr e.affection_delta 0)
          (jsOr e.affection_min (jsOr e.affection_delta 0))
          (jsOr e.affection_max (jsOr e.affection_delta 0))
      money_delta :=
        getRandomVariation qm (jsOr e.money_delta 0)
          (jsOr e.money_min (jsOr e.money_delta 0))
          (jsOr e.money_max (jsOr e.money_delta 0)) }

/-! ## Helper lemmas -/

/-- `applyEventData` never touches `consecutive_none`. -/
lemma applyEventData_consecutive (s : GameState) (ev : EventData) :
    (applyEventData s ev).consecutive_none = s.consecutive_none := by
  unfold applyEventData
  by_cases ha : jsTruthy ev.affection_delta <;>
    by_cases hm : jsTruthy ev.money_delta <;> simp [ha, hm]

/-- `applyEventData` never touches `day`. -/
lemma applyEventData_day (s : GameState) (ev : EventData) :
    (applyEventData s ev).day = s.day := by
  unfold applyEventData
  by_cases ha : jsTruthy ev.affection_delta <;>
    by_cases hm : jsTruthy ev.money_delta <;> simp [ha, hm]

/-- `applyEventData` keeps affection inside `[0, 100]` when it was. -/
lemma applyEventData_affection_bounds (s : GameState) (ev : EventData)
    (h0 : 0 ≤ s.affection) (h1 : s.affection ≤ 100) :
    0 ≤ (applyEventData s ev).affection ∧ (applyEventData s ev).affection ≤ 100 := by
  unfold applyEventData
  by_cases ha : jsTruthy ev.affection_delta <;>
    by_cases hm : jsTruthy ev.money_delta <;> simp [ha, hm] <;> omega

/-- `applyEventData` keeps money nonnegative when it was. -/
lemma applyEventData_money_nonneg (s : GameState) (ev : EventData)
    (h0 : 0 ≤ s.money) : 0 ≤ (applyEventData s ev).money := by
  unfold applyEventData
  by_cases ha : jsTruthy ev.affection_delta <;>
    by_cases hm : jsTruthy ev.money_delta <;> simp [ha, hm] <;> omega

/-- A floored scaled draw `Math.floor(q * k)` with `q ∈ [0,1)` is
nonnegative. -/
lemma floor_draw_nonneg (q : ℚ) (k : Int) (h0 : 0 ≤ q) (hk : 0 ≤ k) :
    0 ≤ ⌊q * ((k : Int) : ℚ)⌋ :=
  Int.floor_nonneg.mpr (mul_nonneg h0 (by exact_mod_cast hk))

/-- A floored scaled draw `Math.floor(q * k)` with `q ∈ [0,1)` and
`k > 0` stays below `k`. -/
lemma floor_draw_lt (q : ℚ) (k : Int) (h1 : q < 1) (hk : 0 < k) :
    ⌊q * ((k : Int) : ℚ)⌋ < k :=
  Int.floor_lt.mpr (mul_lt_of_lt_one_left (by exact_mod_cast hk) h1)

/-- With coinciding bounds, `getRandomVariation` returns the base
value. -/
lemma getRandomVariation_of_eq (q : ℚ) (base v : Int) :
    getRandomVariation q base v v = base := by
  simp [getRandomVariation]

/-- With distinct bounds, `getRandomVariation` lands in the inclusive
range between them. -/
lemma getRandomVariation_mem (q : ℚ) (h0 : 0 ≤ q) (h1 : q < 1)
    (base a b : Int) (hne : a ≠ b) :
    min a b ≤ getRandomVariation q base a b ∧
    getRandomVariation q base a b ≤ max a b := by
  have hk : 0 < max a b - min a b + 1 := by omega
  have hf0 : 0 ≤ ⌊q * ((max a b - min a b + 1 : Int) : ℚ)⌋ :=
    floor_draw_nonneg q _ h0 hk.le
  have hf1 : ⌊q * ((max a b - min a b + 1 : Int) : ℚ)⌋ < max a b - min a b + 1 :=
    floor_draw_lt q _ h1 hk
  simp only [getRandomVariation, if_neg hne]
  omega

/-! ## Claims -/

/-- C1: for every GameState, `checkEndingCondition` returns `bad_end`
whenever `consecutive_none ≥ bad_end_threshold`, whatever the values of
`day`, `affection` and `money` — the inactivity ending preempts every
day-30 outcome. -/
theorem C1_inactivity_preempts (s : GameState)
    (h : s.consecutive_none ≥ s.config.bad_end_threshold) :
    checkEndingCondition s = some "bad_end" := by
  simp [checkEndingCondition, h]

theorem C1_witness :
    checkEndingCondition
      { config := defaultConfig, day := 30, affection := 100, money := 200000,
        consecutive_none := 10 } = some "bad_end" :=
  C1_inactivity_preempts _ (by decide)

/-- C2: with `consecutive_none < bad_end_threshold`, on
`day ≥ max_days` the ending is `perfect_end` / `money_end` /
`affection_end` / `normal_end` according to the money and affection
thresholds, evaluated in that order, and on `day < max_days` the
continue value (`none`, the JavaScript `null`) is returned. -/
theorem C2_day30_cascade (s : GameState)
    (h : s.consecutive_none < s.config.bad_end_threshold) :
    (s.day ≥ s.config.max_days →
      checkEndingCondition s =
        some (if s.affection ≥ s.config.affection_threshold ∧
                  s.money ≥ s.config.goal_money then "perfect_end"
              else if s.money ≥ s.config.goal_money then "money_end"
              else if s.affection ≥ s.config.affection_threshold then "affection_end"
              else "normal_end")) ∧
    (s.day < s.config.max_days → checkEndingCondition s = none) := by
  have hb : ¬ s.consecutive_none ≥ s.config.bad_end_threshold := not_le.mpr h
  constructor
  · intro hd
    simp [checkEndingCondition, hb, hd]
    split_ifs <;> rfl
  · intro hd
    simp [checkEndingCondition, hb, not_le.mpr hd]

theorem C2_witness :
    checkEndingCondition
      { config := defaultConfig, day := 30, affection := 70, money := 100000,
        consecutive_none := 0 } = some "perfect_end" := by
  have h := (C2_day30_cascade
    { config := defaultConfig, day := 30, affection := 70, money := 100000,
      consecutive_none := 0 } (by decide)).1 (by decide)
  exact h

/-- C7: `applyAction` resets `consecutive_none` to 0 on `play` and
`work`, and on `none` increments it by exactly 1 while (absent event
deltas) changing nothing else. -/
theorem C7_consecutive_none_bookkeeping (s : GameState) (ev : EventData) (q : ℚ) :
    (applyAction s "play" ev q).consecutive_none = 0 ∧
    (applyAction s "work" ev q).consecutive_none = 0 ∧
    (applyAction s "none" ev q).consecutive_none = s.consecutive_none + 1 ∧
    applyAction s "none" { affection_delta := none, money_delta := none } q =
      { s with consecutive_none := s.consecutive_none + 1 } := by
  refine ⟨?_, ?_, ?_, rfl⟩
  · show (applyEventData (resetConsecutiveNone _) ev).consecutive_none = 0
    rw [applyEventData_consecutive]
    rfl
  · show (applyEventData (resetConsecutiveNone _) ev).consecutive_none = 0
    rw [applyEventData_consecutive]
    rfl
  · show (applyEventData { s with consecutive_none := s.consecutive_none + 1 } ev).consecutive_none = _
    rw [applyEventData_consecutive]

/-- C9: `incrementDay` adds exactly 1 below `max_days`, saturates at
`max_days` (never wraps or exceeds it), and changes no other field. -/
theorem C9_incrementDay_saturates (s : GameState) :
    (s.day < s.config.max_days → incrementDay s = { s with day := s.day + 1 }) ∧
    (s.config.max_days ≤ s.day → incrementDay s = s) := by
  constructor
  · intro h
    simp [incrementDay, h]
  · intro h
    simp [incrementDay, not_lt.mpr h]

theorem C9_witness :
    incrementDay (newGame defaultConfig) = { newGame defaultConfig with day := 2 } :=
  (C9_incrementDay_saturates (newGame defaultConfig)).1 (by decide)

/-- C8 (amended): `setState` is total (never rejects) and always leaves
`affection ∈ [0,100]`, `money ≥ 0`, `consecutive_none ≥ 0`, `day ≥ 1`
and `day ≤` the PRE-update `max_days`; the full `validateState`
invariant is guaranteed when the input carries no config patch, but a
patch lowering `max_days` below the already-clamped day can break
`day ≤ max_days`, because clamping uses the old config before the patch
is merged. -/
theorem C8_setState_clamps (s : GameState) (inp : StateSnapshot)
    (hm : 1 ≤ s.config.max_days) :
    1 ≤ (setState s inp).day ∧ (setState s inp).day ≤ s.config.max_days ∧
    0 ≤ (setState s inp).affection ∧ (setState s inp).affection ≤ 100 ∧
    0 ≤ (setState s inp).money ∧ 0 ≤ (setState s inp).consecutive_none ∧
    (inp.config = none → validateState (setState s inp) = true) := by
  refine ⟨?_, ?_, ?_, ?_, ?_, ?_, ?_⟩
  · simp [setState]
  · simp [setState]; omega
  · simp [setState]
  · simp [setState]
  · simp [setState]
  · simp [setState]
  · intro hc
    simp [validateState, setState, hc]
    omega

theorem C8_witness :
    validateState (setState (newGame defaultConfig) { day := some 99 }) = true :=
  (C8_setState_clamps (newGame defaultConfig) { day := some 99 }
    (by decide)).2.2.2.2.2.2 rfl

theorem C8_counterexample :
    validateState (setState (newGame defaultConfig)
      { day := some 25, config := some { max_days := some 10 } }) = false := by
  decide

/-- C10: `setState` defaults on any falsy field value, so restoring
`affection = 0` yields `initial_affection` (30 by default, after
clamping) and restoring `day = 0` yields 1; hence a
`getState`/`setState` round trip does not preserve `affection = 0`. -/
theorem C10_falsy_defaulting (s : GameState) (inp : StateSnapshot) :
    (inp.affection = some 0 →
      (setState s inp).affection = max 0 (min 100 s.config.initial_affection)) ∧
    (inp.day = some 0 → 1 ≤ s.config.max_days → (setState s inp).day = 1) ∧
    (s.affection = 0 → s.config.initial_affection = 30 →
      (setState s (getState s)).affection = 30) := by
  refine ⟨?_, ?_, ?_⟩
  · intro ha
    simp [setState, ha, jsOr]
  · intro hd hm
    simp [setState, hd, jsOr]
  · intro ha hi
    simp [setState, getState, ha, hi, jsOr]

theorem C10_witness :
    (setState { newGame defaultConfig with affection := 0 }
      (getState { newGame defaultConfig with affection := 0 })).affection = 30 :=
  (C10_falsy_defaulting { newGame defaultConfig with affection := 0 }
    (getState { newGame defaultConfig with affection := 0 })).2.2 (by decide) (by decide)

/-- The event refuting C3 as stated: base delta 2, min and max both
present and equal to 5. -/
def eventC3 : Event :=
  { id := "c3", type := "play", weight := 1, affection_delta := some 2,
    affection_min := some 5, affection_max := some 5 }

theorem C3_counterexample :
    eventC3.affection_min = some 5 ∧ eventC3.affection_max = some 5 ∧
    (calculateEventEffects (some eventC3) 0 0).affection_delta = 2 ∧
    (calculateEventEffects (some eventC3) 0 0).affection_delta ≠ 5 := by
  decide

/-- C3 (amended): when the min/max override fields are present (nonzero)
and EQUAL, `calculateEventEffects` returns the event's BASE delta — not
the shared min/max value (they only coincide when the base equals it);
when present (nonzero) and unequal it returns an integer in the
inclusive range `[min(min,max), max(min,max)]`; the same holds for the
money fields. -/
theorem C3_minmax_override (e : Event) (qa qm : ℚ)
    (h0a : 0 ≤ qa) (h1a : qa < 1) (h0m : 0 ≤ qm) (h1m : qm < 1) :
    (∀ v : Int, v ≠ 0 → e.affection_min = some v → e.affection_max = some v →
      (calculateEventEffects (some e) qa qm).affection_delta = jsOr e.affection_delta 0) ∧
    (∀ a b : Int, a ≠ 0 → b ≠ 0 → a ≠ b →
      e.affection_min = some a → e.affection_max = some b →
      min a b ≤ (calculateEventEffects (some e) qa qm).affection_delta ∧
      (calculateEventEffects (some e) qa qm).affection_delta ≤ max a b) ∧
    (∀ v : Int, v ≠ 0 → e.money_min = some v → e.money_max = some v →
      (calculateEventEffects (some e) qa qm).money_delta = jsOr e.money_delta 0) ∧
    (∀ a b : Int, a ≠ 0 → b ≠ 0 → a ≠ b →
      e.money_min = some a → e.money_max = some b →
      min a b ≤ (calculateEventEffects (some e) qa qm).money_delta ∧
      (calculateEventEffects (some e) qa qm).money_delta ≤ max a b) := by
  refine ⟨?_, ?_, ?_, ?_⟩
  · intro v hv hmin hmax
    simp [calculateEventEffects, hmin, hmax, jsOr, hv, getRandomVariation_of_eq]
  · intro a b ha hb hab hmin hmax
    have h := getRandomVariation_mem qa h0a h1a (jsOr e.affection_delta 0) a b hab
    simpa [calculateEventEffects, hmin, hmax, jsOr, ha, hb] using h
  · intro v hv hmin hmax
    simp [calculateEventEffects, hmin, hmax, jsOr, hv, getRandomVariation_of_eq]
  · intro a b ha hb hab hmin hmax
    have h := getRandomVariation_mem qm h0m h1m (jsOr e.money_delta 0) a b hab
    simpa [calculateEventEffects, hmin, hmax, jsOr, ha, hb] using h

theorem C3_witness :
    (calculateEventEffects
      (some { id := "w3", type := "play", weight := 1, affection_delta := some 3,
              affection_min := some 5, affection_max := some 5 }) 0 0).affection_delta = 3 :=
  (C3_minmax_override _ 0 0 (le_refl 0) zero_lt_one (le_refl 0) zero_lt_one).1
    5 (by decide) rfl rfl

/-- C5: a `play` action raises affection by `max 3 (draw)` — at least 3
before clamping — and, whatever event deltas follow, the resulting
affection stays inside `[0, 100]` whenever it started there. -/
theorem C5_play_bounds (s : GameState) (ev : EventData) (q : ℚ)
    (h0 : 0 ≤ q) (h1 : q < 1) (ha0 : 0 ≤ s.affection) (ha1 : s.affection ≤ 100) :
    3 ≤ max 3 (affectionGain s.config q) ∧
    (applyAction s "play" { affection_delta := none, money_delta := none } q).affection
      = min 100 (s.affection + max 3 (affectionGain s.config q)) ∧
    0 ≤ (applyAction s "play" ev q).affection ∧
    (applyAction s "play" ev q).affection ≤ 100 := by
  refine ⟨le_max_left _ _, rfl, ?_⟩
  have hrw : applyAction s "play" ev q = applyEventData { s with affection := min 100 (s.affection + max 3 (affectionGain s.config q)), consecutive_none := 0 } ev := rfl
  rw [hrw]
  exact applyEventData_affection_bounds _ _ (by simp; omega) (by simp)

theorem C5_witness :
    0 ≤ (applyAction (newGame defaultConfig) "play"
          { affection_delta := none, money_delta := none } 0).affection ∧
    (applyAction (newGame defaultConfig) "play"
          { affection_delta := none, money_delta := none } 0).affection ≤ 100 :=
  ⟨(C5_play_bounds (newGame defaultConfig) _ 0 (le_refl 0) zero_lt_one
      (by decide) (by decide)).2.2.1,
   (C5_play_bounds (newGame defaultConfig) _ 0 (le_refl 0) zero_lt_one
      (by decide) (by decide)).2.2.2⟩

/-- C6: a `work` action adds `max 4000 (min 7000 (draw))` to money — an
amount always inside `[4000, 7000]` — and, whatever event deltas follow,
money never goes negative if it started nonnegative. -/
theorem C6_work_bounds (s : GameState) (ev : EventData) (q : ℚ)
    (h0 : 0 ≤ q) (h1 : q < 1) (hm : 0 ≤ s.money) :
    4000 ≤ max 4000 (min 7000 (moneyGain s.config q)) ∧
    max 4000 (min 7000 (moneyGain s.config q)) ≤ 7000 ∧
    (applyAction s "work" { affection_delta := none, money_delta := none } q).money
      = s.money + max 4000 (min 7000 (moneyGain s.config q)) ∧
    0 ≤ (applyAction s "work" ev q).money := by
  refine ⟨le_max_left _ _, by omega, rfl, ?_⟩
  have hrw : applyAction s "work" ev q = applyEventData { s with money := s.money + max 4000 (min 7000 (moneyGain s.config q)), consecutive_none := 0 } ev := rfl
  rw [hrw]
  exact applyEventData_money_nonneg _ _ (by simp; omega)

theorem C6_witness :
    0 ≤ (applyAction (newGame defaultConfig) "work"
          { affection_delta := none, money_delta := none } 0).money :=
  (C6_work_bounds (newGame defaultConfig) _ 0 (le_refl 0) zero_lt_one
    (by decide)).2.2.2

/-- The play-pool weight adjustment changes only the weight field. -/
lemma adjustSpecial_day_specific (e : Event) :
    (adjustSpecial e).day_specific = e.day_specific := rfl

/-- The play-pool weight adjustment preserves the event's type. -/
lemma adjustSpecial_type (e : Event) : (adjustSpecial e).type = e.type := rfl

/-- The unfolding equation of `pickLoop` on a nonempty list. -/
lemma pickLoop_cons (rv : ℚ) (e : Event) (rest : List Event) :
    pickLoop rv (e :: rest) =
      if rv - e.weight ≤ 0 then some e
      else
        match pickLoop (rv - e.weight) rest with
        | some x => some x
        | none => some e := by
  rw [pickLoop]

/-- The subtraction loop on a nonempty list always returns some element
of the list. -/
lemma pickLoop_mem (rv : ℚ) (e : Event) (rest : List Event) :
    ∃ x ∈ e :: rest, pickLoop rv (e :: rest) = some x := by
  induction rest generalizing rv e with
  | nil =>
    by_cases hc : rv - e.weight ≤ 0 <;>
      exact ⟨e, List.mem_cons_self e [], by simp [pickLoop, hc]⟩
  | cons f rest ih =>
    by_cases hc : rv - e.weight ≤ 0
    · exact ⟨e, List.mem_cons_self e (f :: rest), by simp [pickLoop, hc]⟩
    · obtain ⟨x, hx, hpx⟩ := ih (rv - e.weight) f
      refine ⟨x, List.mem_cons_of_mem e hx, ?_⟩
      rw [pickLoop_cons, if_neg hc, hpx]

/-- Whatever the draws (inside `[0,1)` for the uniform one),
`selectWeightedRandom` on a nonempty list returns one of its elements,
possibly with the play-pool weight adjustment applied. -/
lemma selectWeightedRandom_mem (rv ru : ℚ) (l : List Event) (hne : l ≠ [])
    (h0 : 0 ≤ ru) (h1 : ru < 1) :
    ∃ e₀ ∈ l, selectWeightedRandom rv ru l = some e₀ ∨
      selectWeightedRandom rv ru l = some (adjustSpecial e₀) := by
  cases l with
  | nil => exact absurd rfl hne
  | cons e0 rest =>
    simp only [selectWeightedRandom]
    by_cases hw :
        (((if e0.type = "play" then (e0 :: rest).map adjustSpecial
           else e0 :: rest)).map Event.weight).sum ≤ 0
    · rw [if_pos hw]
      have hcast : (((e0 :: rest).length : ℚ)) = (((e0 :: rest).length : Int) : ℚ) := by
        push_cast
        rfl
      have hfl : 0 ≤ ⌊ru * (((e0 :: rest).length : Int) : ℚ)⌋ :=
        floor_draw_nonneg ru _ h0 (by positivity)
      have hfu : ⌊ru * (((e0 :: rest).length : Int) : ℚ)⌋ < ((e0 :: rest).length : Int) :=
        floor_draw_lt ru _ h1 (by simp)
      have hidx : (⌊ru * (((e0 :: rest).length : ℚ))⌋).toNat < (e0 :: rest).length := by
        rw [hcast]
        omega
      refine ⟨(e0 :: rest).get ⟨_, hidx⟩, List.get_mem _ _ hidx, Or.inl ?_⟩
      rw [List.get?_eq_get hidx]
    · rw [if_neg hw]
      by_cases hp : e0.type = "play"
      · rw [if_pos hp] at hw ⊢
        rw [List.map_cons] at hw ⊢
        obtain ⟨x, hx, hpx⟩ :=
          pickLoop_mem (rv * (((adjustSpecial e0 :: rest.map adjustSpecial)).map Event.weight).sum)
            (adjustSpecial e0) (rest.map adjustSpecial)
        rw [← List.map_cons] at hx
        obtain ⟨e₀, he₀, rfl⟩ := List.mem_map.mp hx
        exact ⟨e₀, he₀, Or.inr hpx⟩
      · rw [if_neg hp] at hw ⊢
        obtain ⟨x, hx, hpx⟩ :=
          pickLoop_mem (rv * (((e0 :: rest)).map Event.weight).sum) e0 rest
        exact ⟨x, hx, Or.inl hpx⟩

/-- Passing the day-specific filter pins down `day_specific`. -/
lemma day_specific_of_filter (e : Event) (day : Int)
    (h : isDaySpecificFor e day = true) : e.day_specific = some day := by
  unfold isDaySpecificFor jsTruthy at h
  cases hd : e.day_specific with
  | none => rw [hd] at h; simp at h
  | some d =>
    rw [hd] at h
    simp at h
    rw [h.2]

/-- C4 (amended): for every loaded catalog, action type, NONZERO day and
outcome of the random draws, if some event of that type has
`day_specific` equal to the day, then `pickEvent` returns one of those
day-specific events (up to the play-pool weight adjustment) and never an
event without that `day_specific` value.  (A `day_specific` of `0` is
falsy in the source's filter, so day-0 events do not preempt — the
original claim fails there.) -/
theorem C4_day_specific_preempts (sys : EventSystem) (type : String) (day : Int)
    (rv ru : ℚ) (hL : sys.isLoaded = true) (hday : day ≠ 0)
    (h0 : 0 ≤ ru) (h1 : ru < 1)
    (hex : ∃ e ∈ sys.events, e.type = type ∧ e.day_specific = some day) :
    (∃ e₀ ∈ sys.events, e₀.type = type ∧ e₀.day_specific = some day ∧
      (pickEvent sys type day rv ru = some e₀ ∨
       pickEvent sys type day rv ru = some (adjustSpecial e₀))) ∧
    (∀ e', pickEvent sys type day rv ru = some e' →
      e'.day_specific = some day) := by
  obtain ⟨e, heMem, heType, heDay⟩ := hex
  have heT : e ∈ sys.events.filter (fun x => x.type == type) :=
    List.mem_filter.mpr ⟨heMem, by simp [heType]⟩
  have heD : isDaySpecificFor e day = true := by
    simp [isDaySpecificFor, heDay, jsTruthy, hday]
  have heDS : e ∈ (sys.events.filter (fun x => x.type == type)).filter
      (fun x => isDaySpecificFor x day) :=
    List.mem_filter.mpr ⟨heT, heD⟩
  have hTlen : ¬ (sys.events.filter (fun x => x.type == type)).length = 0 := by
    have := List.length_pos.mpr (List.ne_nil_of_mem heT)
    omega
  have hDlen : ((sys.events.filter (fun x => x.type == type)).filter
      (fun x => isDaySpecificFor x day)).length > 0 :=
    List.length_pos.mpr (List.ne_nil_of_mem heDS)
  have hnotL : ¬ ((!sys.isLoaded) = true) := by simp [hL]
  have hpe : pickEvent sys type day rv ru =
      selectWeightedRandom rv ru ((sys.events.filter (fun x => x.type == type)).filter
        (fun x => isDaySpecificFor x day)) := by
    simp only [pickEvent]
    rw [if_neg hnotL, if_neg hTlen, if_pos hDlen]
  obtain ⟨e₀, h0mem, hsel⟩ :=
    selectWeightedRandom_mem rv ru _ (List.ne_nil_of_mem heDS) h0 h1
  have h0D : e₀.day_specific = some day :=
    day_specific_of_filter e₀ day (List.mem_filter.mp h0mem).2
  have h0T : e₀.type = type := by
    have := (List.mem_filter.mp (List.mem_filter.mp h0mem).1).2
    simpa using this
  have h0M : e₀ ∈ sys.events :=
    List.mem_of_mem_filter (List.mem_of_mem_filter h0mem)
  constructor
  · exact ⟨e₀, h0M, h0T, h0D, by rw [hpe]; exact hsel⟩
  · intro e' he'
    rw [hpe] at he'
    rcases hsel with hs | hs <;> rw [hs] at he' <;>
      cases Option.some_inj.mp he'
    · exact h0D
    · rw [adjustSpecial_day_specific]
      exact h0D

/-- The two-event catalog refuting C4 as stated: a day-0-specific play
event next to a generic one. -/
def eventC4day0 : Event :=
  { id := "d0", type := "play", weight := 1, day_specific := some 0 }

/-- The generic play event of the C4 counterexample catalog. -/
def eventC4gen : Event := { id := "gen", type := "play", weight := 1 }

/-- The C4 counterexample catalog. -/
def sysC4 : EventSystem :=
  { events := [eventC4day0, eventC4gen], isLoaded := true }

theorem C4_counterexample :
    eventC4day0 ∈ sysC4.events ∧ eventC4day0.type = "play" ∧
    eventC4day0.day_specific = some 0 ∧
    pickEvent sysC4 "play" 0 (3 / 4) 0 = some eventC4gen ∧
    eventC4gen.day_specific = none := by
  refine ⟨List.mem_cons_self _ _, rfl, rfl, ?_, rfl⟩
  show selectWeightedRandom (3 / 4) 0 [eventC4day0, eventC4gen] = some eventC4gen
  simp only [selectWeightedRandom, eventC4day0, eventC4gen, adjustSpecial,
    List.map_cons, List.map_nil, List.sum_cons, List.sum_nil]
  norm_num [pickLoop]

/-- The day-5-specific play event used to witness C4. -/
def eventC4w : Event :=
  { id := "w4", type := "play", weight := 1, day_specific := some 5 }

/-- The one-event catalog used to witness C4. -/
def sysC4w : EventSystem := { events := [eventC4w], isLoaded := true }

theorem C4_witness :
    (∃ e₀ ∈ sysC4w.events, e₀.type = "play" ∧ e₀.day_specific = some 5 ∧
      (pickEvent sysC4w "play" 5 0 0 = some e₀ ∨
       pickEvent sysC4w "play" 5 0 0 = some (adjustSpecial e₀))) ∧
    (∀ e', pickEvent sysC4w "play" 5 0 0 = some e' →
      e'.day_specific = some 5) :=
  C4_day_specific_preempts sysC4w "play" 5 0 0 rfl (by decide) (le_refl 0)
    zero_lt_one ⟨eventC4w, List.mem_cons_self _ _, rfl, rfl⟩

end VNGame
